import Mathlib

/-!
Verification of the Proctored Session Controller of the `camera` repository.

The development shallowly embeds the parts of the TypeScript source that the
specification talks about:

* `src/lib/aiValidation.ts` (`validateAnswer`, `mockAIValidation`,
  `validateCodingAnswer`, `validateTextAnswer`) — answer scoring;
* the whole-exam-timer `InterviewInterface` component (the one holding
  `autoSubmitRef`, `submitInterview`, `handleViolation`, `startTimer`) —
  initialization, violation accounting, the auto-submit triggers and the
  finalization pass;
* `ProctoringSystem` (the version with `fullscreenInitializedRef`) — the
  violation monitor's arming flag and the media-capture cleanup lifecycle.

React semantics used by the embedding: within one instant (one event-loop
task) reads of `useState` state see the snapshot from the last render and
writes are flushed only at the end of the instant, while `useRef` cells are
read and written synchronously.  Successive instants see flushed state.
-/

namespace Camera

/-! ## Data model (`src/lib/supabase.ts`) -/

/-- The `question_type` field of `Question`: `'mcq' | 'coding' | 'text'`. -/
inductive QuestionType
  | mcq
  | coding
  | text
  deriving DecidableEq, Repr

/-- The fields of a `Question` row that the scoring pass reads.  `test_cases`
is `any[]` in the source and only its emptiness is inspected, so elements are
modelled as `Unit`.  Scores are rationals because the validator multiplies
`max_score` by fractional weights. -/
structure Question where
  id : String
  question_type : QuestionType
  correct_answer : Option String
  test_cases : List Unit
  max_score : ℚ
  time_limit : ℚ
  deriving DecidableEq, Repr

/-- The `ExecutionResult` of `src/lib/codeExecution.ts`: the validator only
inspects the presence of the `error` field. -/
structure ExecutionResult where
  output : Option String
  error : Option String
  deriving DecidableEq, Repr

/-! ## AI validation (`src/lib/aiValidation.ts`) -/

/-- JavaScript `haystack.includes(needle)` on the underlying character
lists. -/
def containsSub : List Char → List Char → Bool
  | needle, [] => needle.isEmpty
  | needle, c :: rest => needle.isPrefixOf (c :: rest) || containsSub needle rest

/-- JavaScript `String.prototype.includes`. -/
def strIncludes (s sub : String) : Bool :=
  containsSub sub.toList s.toList

/-- JavaScript `answer.trim().length === 0`: every character is
whitespace. -/
def isBlank (s : String) : Bool :=
  s.toList.all Char.isWhitespace

/-- Count the maximal non-whitespace runs of a character list; the flag says
whether the previous character belonged to a word. -/
def countWordsAux : Bool → List Char → Nat
  | _, [] => 0
  | inWord, c :: rest =>
      if Char.isWhitespace c then countWordsAux false rest
      else (if inWord then 0 else 1) + countWordsAux true rest

/-- JavaScript `answer.trim().split(/\s+/).length` for a non-blank string:
number of whitespace-separated words. -/
def wordCount (s : String) : Nat :=
  countWordsAux false s.toList

/-- The 30%-for-basic-structure component of `validateCodingAnswer`:
`answer.includes('def ') || answer.includes('function') || answer.includes('trigger')`. -/
def codingStructureScore (question : Question) (answer : String) : ℚ :=
  if strIncludes answer "def " || strIncludes answer "function" ||
      strIncludes answer "trigger" then question.max_score * (3 / 10) else 0

/-- The 40%-for-running-without-errors component of `validateCodingAnswer`:
`executionResult && !executionResult.error`. -/
def codingExecScore (question : Question)
    (executionResult : Option ExecutionResult) : ℚ :=
  match executionResult with
  | some r => if r.error = none then question.max_score * (4 / 10) else 0
  | none => 0

/-- The 30%-for-test-case-compliance component of `validateCodingAnswer`:
`question.test_cases && question.test_cases.length > 0`. -/
def codingTestScore (question : Question) : ℚ :=
  if question.test_cases.isEmpty then 0 else question.max_score * (3 / 10)

/-- Source `validateCodingAnswer(question, answer, executionResult)`: zero for a
blank answer, otherwise the three components summed and clamped with
`Math.min(score, maxScore)`. -/
def validateCodingAnswer (question : Question) (answer : String)
    (executionResult : Option ExecutionResult) : ℚ :=
  if isBlank answer then 0
  else
    min (codingStructureScore question answer + codingExecScore question executionResult +
      codingTestScore question) question.max_score

/-- Source `validateTextAnswer(question, answer)`: banded by word count. -/
def validateTextAnswer (question : Question) (answer : String) : ℚ :=
  if isBlank answer then 0
  else if 50 ≤ wordCount answer then question.max_score * (9 / 10)
  else if 25 ≤ wordCount answer then question.max_score * (7 / 10)
  else if 10 ≤ wordCount answer then question.max_score * (5 / 10)
  else question.max_score * (3 / 10)

/-- The score/maxScore part of `AIValidationResult` (the feedback strings are
not needed by any claim). -/
structure AIValidationResult where
  score : ℚ
  maxScore : ℚ
  deriving DecidableEq, Repr

/-- Source `mockAIValidation(question, answer, executionResult)`: the score
computation of the switch on `question.question_type`.  For `mcq` the answer
matches `question.correct_answer` (an absent `correct_answer` matches no
string, as in JS `===`). -/
def mockAIValidation (question : Question) (answer : String)
    (executionResult : Option ExecutionResult) : AIValidationResult :=
  match question.question_type with
  | .mcq =>
      { score :=
          match question.correct_answer with
          | some c => if answer = c then question.max_score else 0
          | none => 0,
        maxScore := question.max_score }
  | .coding =>
      { score := validateCodingAnswer question answer executionResult,
        maxScore := question.max_score }
  | .text =>
      { score := validateTextAnswer question answer,
        maxScore := question.max_score }

/-- Source `validateAnswer`: delegates to `mockAIValidation` (the catch branch,
which falls back to score 0, is unreachable for the pure mock). -/
def validateAnswer (question : Question) (answer : String)
    (executionResult : Option ExecutionResult) : AIValidationResult :=
  mockAIValidation question answer executionResult

/-! ## Finalization scoring and rating
(`submitInterview` of the whole-exam-timer `InterviewInterface`) -/

/-- Values of the `overall_rating` column. -/
inductive Rating
  | excellent
  | good
  | average
  | poor
  deriving DecidableEq, Repr

/-- The rating banding of `submitInterview` (and of `completeInterview` in
the per-question variant): `>= 90` excellent, `>= 75` good, `>= 60` average,
else poor. -/
def overallRating (percentageScore : ℚ) : Rating :=
  if 90 ≤ percentageScore then .excellent
  else if 75 ≤ percentageScore then .good
  else if 60 ≤ percentageScore then .average
  else .poor

/-- Source `percentageScore = maxPossibleScore > 0 ? (totalScore / maxPossibleScore) * 100 : 0`. -/
def percentageScore (totalScore maxPossibleScore : ℚ) : ℚ :=
  if 0 < maxPossibleScore then totalScore / maxPossibleScore * 100 else 0

/-- The in-progress answer draft kept in the `answers` record:
`{ text?, code? }`. -/
structure AnswerDraft where
  text : Option String
  code : Option String
  deriving DecidableEq, Repr

/-- JavaScript `x || y` on an optional string: an absent or empty string is
falsy. -/
def jsOrStr (x : Option String) (y : String) : String :=
  match x with
  | some s => if s = "" then y else s
  | none => y

/-- JavaScript `x || null`. -/
def jsOrNull (x : Option String) : Option String :=
  match x with
  | some s => if s = "" then none else some s
  | none => none

/-- The payload handed to the validator in `submitInterview`:
`answer.text || answer.code || ''`. -/
def answerPayload (a : AnswerDraft) : String :=
  jsOrStr a.text (jsOrStr a.code "")

/-- The contribution of one question inside `submitInterview`'s loop:
questions whose id has no entry in `answers` are skipped (`continue`),
otherwise the validator's score is added. -/
def questionScore (answers : String → Option AnswerDraft)
    (executionResult : Option ExecutionResult) (q : Question) : ℚ :=
  match answers q.id with
  | none => 0
  | some a => (validateAnswer q (answerPayload a) executionResult).score

/-- The `totalScore` accumulated by `submitInterview` over all assigned
questions. -/
def totalScore (questions : List Question)
    (answers : String → Option AnswerDraft)
    (executionResult : Option ExecutionResult) : ℚ :=
  (questions.map (questionScore answers executionResult)).sum

/-- Source `maxPossibleScore = questions.reduce((sum, q) => sum + q.max_score, 0)`. -/
def maxPossibleScore (questions : List Question) : ℚ :=
  (questions.map (·.max_score)).sum

/-- A row inserted into `interview_answers` by `submitInterview`. -/
structure AnswerRow where
  question_id : String
  answer_text : Option String
  answer_code : Option String
  execution_result : Option ExecutionResult
  score : ℚ
  max_score : ℚ
  deriving DecidableEq, Repr

/-- The `interview_answers` inserts performed by `submitInterview`: one per
answered question, each carrying the single component-level
`executionResult`. -/
def answerRows (questions : List Question)
    (answers : String → Option AnswerDraft)
    (executionResult : Option ExecutionResult) : List AnswerRow :=
  questions.filterMap fun q =>
    (answers q.id).map fun a =>
      { question_id := q.id,
        answer_text := jsOrNull a.text,
        answer_code := jsOrNull a.code,
        execution_result := executionResult,
        score := (validateAnswer q (answerPayload a) executionResult).score,
        max_score := q.max_score }

/-- The single `executionResult` component state after a sequence of
`executeCurrentCode` runs, each tagged with the id of the question whose code
was run: `setExecutionResult(result)` overwrites the one shared cell. -/
def sessionExecResult (runs : List (String × ExecutionResult)) :
    Option ExecutionResult :=
  runs.foldl (fun _ r => some r.2) none

/-- Concrete scenario of the spec's §8: three questions worth 5, 10 and 15
points (30 in total). -/
def scenarioQuestions : List Question :=
  [{ id := "q1", question_type := .text, correct_answer := none,
     test_cases := [], max_score := 5, time_limit := 60 },
   { id := "q2", question_type := .coding, correct_answer := none,
     test_cases := [()], max_score := 10, time_limit := 60 },
   { id := "q3", question_type := .mcq, correct_answer := some "B",
     test_cases := [], max_score := 15, time_limit := 60 }]

/-- Concrete scenario answers: only the first and third questions are
answered. -/
def scenarioAnswers : String → Option AnswerDraft := fun qid =>
  if qid = "q1" then some { text := some "short answer", code := none }
  else if qid = "q3" then some { text := some "B", code := none }
  else none

/-! ## Initialization (`initializeInterview`) -/

/-- Error taxonomy entry relevant to `initialize`. -/
inductive InitError
  | noQuestionsAvailable
  deriving DecidableEq, Repr

/-- The `status` column of `interviews`. -/
inductive SessionStatus
  | in_progress
  | completed
  | abandoned
  deriving DecidableEq, Repr

/-- The `interviews` row created by `initializeInterview`. -/
structure SessionRecord where
  candidate_id : String
  domain_id : String
  exam_code_used : String
  status : SessionStatus
  questions_assigned : List String
  max_possible_score : ℚ
  deriving DecidableEq, Repr

/-- Outcome of `initializeInterview`: the returned result together with the
list of `interviews` inserts it performed. -/
structure InitOutcome where
  result : Except InitError SessionRecord
  inserts : List SessionRecord
  deriving Repr

/-- Source `initializeInterview`: an empty question set aborts (toast
`'No questions available …'` + `return`) before the `interviews` insert;
otherwise exactly one `in_progress` row is inserted with
`questions_assigned` and `max_possible_score` derived from the fetched
questions. -/
def initializeInterview (candidateId domainId examCode : String)
    (questionsData : List Question) : InitOutcome :=
  if questionsData.isEmpty then
    { result := .error .noQuestionsAvailable, inserts := [] }
  else
    let record : SessionRecord :=
      { candidate_id := candidateId,
        domain_id := domainId,
        exam_code_used := examCode,
        status := .in_progress,
        questions_assigned := questionsData.map (·.id),
        max_possible_score := maxPossibleScore questionsData }
    { result := .ok record, inserts := [record] }

/-! ## Auto-submit triggers (`autoSubmitRef`, `startTimer`, the two
`useEffect` hooks and `submitInterview`'s entry guard) -/

/-- The three finalization triggers. -/
inductive Trigger
  | manual
  | time_expired
  | violation_limit
  deriving DecidableEq, Repr

/-- The component state relevant to finalization arbitration.
`timeRemaining`, `violationsLen` (the length of the `violations` list),
`proctoringActive` and `submitting` are `useState` state; `autoSubmit` is
`autoSubmitRef.current`; `finalizations` logs each completed run of
`submitInterview`'s body, tagged with the trigger that entered it. -/
structure SessionState where
  timeRemaining : Nat
  violationsLen : Nat
  proctoringActive : Bool
  submitting : Bool
  autoSubmit : Bool
  finalizations : List Trigger
  deriving DecidableEq, Repr

/-- Source `submitInterview`: `if (submitting) return;` then `setSubmitting(true)`,
`setProctoringActive(false)`, and one full finalization pass.  This is the
cross-instant view in which state writes have been flushed. -/
def submitInterview (trigger : Trigger) (s : SessionState) : SessionState :=
  if s.submitting then s
  else
    { s with
      submitting := true,
      proctoringActive := false,
      finalizations := s.finalizations ++ [trigger] }

/-- The body shared by both auto-submit `useEffect` hooks once their
condition holds: `autoSubmitRef.current = true; handleAutoSubmit(reason)`. -/
def fireAutoSubmit (trigger : Trigger) (s : SessionState) : SessionState :=
  submitInterview trigger { s with autoSubmit := true }

/-- The two auto-submit `useEffect` hooks, in source order: the timer hook
fires on `timeRemaining <= 0 && !autoSubmitRef.current`, the violation hook
on `violations.length >= 3 && !autoSubmitRef.current && proctoringActive`. -/
def runAutoSubmitEffects (s : SessionState) : SessionState :=
  let s1 :=
    if s.timeRemaining = 0 && !s.autoSubmit then
      fireAutoSubmit .time_expired s
    else s
  if 3 ≤ s1.violationsLen && !s1.autoSubmit && s1.proctoringActive then
    fireAutoSubmit .violation_limit s1
  else s1

/-- One timer tick (`startTimer`'s interval callback:
`prev <= 1 ? 0 : prev - 1`) followed by the effects it can trigger. -/
def tick (s : SessionState) : SessionState :=
  runAutoSubmitEffects
    { s with timeRemaining := if s.timeRemaining ≤ 1 then 0 else s.timeRemaining - 1 }

/-- Iterated timer ticks, one per instant. -/
def tickN : Nat → SessionState → SessionState
  | 0, s => s
  | n + 1, s => tick (tickN n s)

/-- One qualifying violation signal: `handleViolation` appends to the
`violations` list, then the violation `useEffect` (and, vacuously while
`timeRemaining > 0`, the timer one) runs against the grown list. -/
def violationStep (s : SessionState) : SessionState :=
  runAutoSubmitEffects { s with violationsLen := s.violationsLen + 1 }

/-- Iterated qualifying violation signals, one per instant. -/
def violationN : Nat → SessionState → SessionState
  | 0, s => s
  | n + 1, s => violationStep (violationN n s)

/-- The state of a freshly started exam (`startExam` has run: proctoring is
active, the timer holds the full budget, no violations, nothing claimed). -/
def startedSession (budget : Nat) : SessionState :=
  { timeRemaining := budget,
    violationsLen := 0,
    proctoringActive := true,
    submitting := false,
    autoSubmit := false,
    finalizations := [] }

/-- The session state right after the timer trigger has claimed
finalization. -/
def timeExpiredState : SessionState :=
  { timeRemaining := 0,
    violationsLen := 0,
    proctoringActive := false,
    submitting := true,
    autoSubmit := true,
    finalizations := [.time_expired] }

/-- The session state after the violation trigger has claimed finalization,
with `n` signals recorded and the timer budget untouched at `t`. -/
def violationLimitState (t n : Nat) : SessionState :=
  { timeRemaining := t,
    violationsLen := n,
    proctoringActive := false,
    submitting := true,
    autoSubmit := true,
    finalizations := [.violation_limit] }

/-! ## Same-instant arbitration

Within one instant, reads of `submitting` see the snapshot from the last
render; `setSubmitting(true)` only lands at the end of the instant.
`autoSubmitRef` is a ref and is read/written synchronously. -/

/-- Arbitration state inside a single instant: `submitting` is the stale
snapshot every handler in this instant reads, `pendingSubmitting` the queued
write. -/
structure InstantState where
  submitting : Bool
  pendingSubmitting : Bool
  autoSubmit : Bool
  finalizations : List Trigger
  deriving DecidableEq, Repr

/-- Source `submitInterview` as it executes inside one instant: the
`if (submitting) return` guard reads the snapshot, the `setSubmitting(true)`
write is only queued. -/
def submitInterviewInstant (trigger : Trigger) (s : InstantState) : InstantState :=
  if s.submitting then s
  else
    { s with
      pendingSubmitting := true,
      finalizations := s.finalizations ++ [trigger] }

/-- One trigger firing within the instant.  The manual submit button calls
`submitInterview(false)` directly; the two automatic triggers first pass the
`!autoSubmitRef.current` check and synchronously set the ref. -/
def fireTrigger (s : InstantState) (t : Trigger) : InstantState :=
  match t with
  | .manual => submitInterviewInstant .manual s
  | .time_expired =>
      if s.autoSubmit then s
      else submitInterviewInstant .time_expired { s with autoSubmit := true }
  | .violation_limit =>
      if s.autoSubmit then s
      else submitInterviewInstant .violation_limit { s with autoSubmit := true }

/-- Run all triggers that fire within one instant, then flush the queued
state writes at the instant boundary. -/
def runInstant (s : InstantState) (triggers : List Trigger) : InstantState :=
  let s1 := triggers.foldl fireTrigger s
  { s1 with submitting := s1.submitting || s1.pendingSubmitting }

/-- Instant state of an Active session in which no trigger has fired yet. -/
def cleanInstant : InstantState :=
  { submitting := false,
    pendingSubmitting := false,
    autoSubmit := false,
    finalizations := [] }

/-! ## Violation accounting (`handleViolation`) -/

/-- The persistence effects of `handleViolation`: the up-to-date local
`violations` list (grown through the functional `setViolations(prev => …)`
update), the `interview_violations` inserts, and the successive values
written to `interviews.violation_count`. -/
structure ViolationLog where
  violations : List (String × String)
  violationInserts : List (String × String)
  countWrites : List Nat
  deriving DecidableEq, Repr

/-- Source `handleViolation(type, details)` for one qualifying signal:
insert the `interview_violations` row, append to the local list through the
functional `setViolations` update, and write `violations.length + 1` to the
interview row.  The `violations` array read by that write is the one held by
the closure the monitor's DOM listeners captured when they were registered —
not the current list — so it is a parameter here, fixed per closure. -/
def handleViolation (capturedViolations : List (String × String))
    (s : ViolationLog) (vtype details : String) : ViolationLog :=
  { violations := s.violations ++ [(vtype, details)],
    violationInserts := s.violationInserts ++ [(vtype, details)],
    countWrites := s.countWrites ++ [capturedViolations.length + 1] }

/-- Process a list of qualifying signals in order.  Every signal invokes the
same captured `handleViolation` closure — the listeners are registered once,
at monitor activation, and never re-registered — so `capturedViolations` is
fixed for the whole Active period. -/
def recordViolations (capturedViolations : List (String × String))
    (s : ViolationLog) : List (String × String) → ViolationLog
  | [] => s
  | v :: rest =>
      recordViolations capturedViolations
        (handleViolation capturedViolations s v.1 v.2) rest

/-- Log state of a freshly Active session.  The monitor arms before any
qualifying signal, so the violations array captured at listener registration
is the empty list. -/
def emptyViolationLog : ViolationLog :=
  { violations := [], violationInserts := [], countWrites := [] }

/-! ## Violation Monitor (`ProctoringSystem`, the version with
`fullscreenInitializedRef`) -/

/-- A keyboard event as inspected by `handleKeyDown`. -/
structure KeyEvent where
  key : String
  ctrlKey : Bool
  shiftKey : Bool
  altKey : Bool
  deriving DecidableEq, Repr

/-- An entry of the `forbiddenCombos` table; a field that is absent in the
source literal behaves as `false` in every place it is read. -/
structure KeyCombo where
  ctrl : Bool
  shift : Bool
  alt : Bool
  key : String
  deriving DecidableEq, Repr

/-- The `forbiddenKeys` list. -/
def forbiddenKeys : List String := ["F12", "F5", "F11"]

/-- The `forbiddenCombos` list. -/
def forbiddenCombos : List KeyCombo :=
  [⟨true, false, false, "r"⟩, ⟨true, false, false, "R"⟩,
   ⟨true, false, false, "w"⟩, ⟨true, false, false, "W"⟩,
   ⟨true, false, false, "t"⟩, ⟨true, false, false, "T"⟩,
   ⟨true, false, false, "n"⟩, ⟨true, false, false, "N"⟩,
   ⟨true, true, false, "I"⟩, ⟨true, true, false, "J"⟩,
   ⟨true, true, false, "C"⟩,
   ⟨false, false, true, "Tab"⟩, ⟨false, false, true, "F4"⟩]

/-- Does a key event match one combo?  Mirrors
`(combo.ctrl && e.ctrlKey) && (combo.shift ? e.shiftKey : !e.shiftKey) &&
(combo.alt ? e.altKey : !e.altKey) && e.key.toLowerCase() === combo.key.toLowerCase()`. -/
def comboMatches (combo : KeyCombo) (e : KeyEvent) : Bool :=
  (combo.ctrl && e.ctrlKey) &&
    (if combo.shift then e.shiftKey else !e.shiftKey) &&
    (if combo.alt then e.altKey else !e.altKey) &&
    e.key.toLower = combo.key.toLower

/-- The Capability Provider signals the monitor subscribes to. -/
inductive Signal
  | fullscreenChange (isFullscreen : Bool)
  | visibilityChange (hidden : Bool)
  | contextMenu
  | keyDown (e : KeyEvent)
  deriving DecidableEq, Repr

/-- Monitor state: `isActive` is the prop, `armed` is
`fullscreenInitializedRef.current`, `emitted` the `onViolation` calls. -/
structure MonitorState where
  isActive : Bool
  armed : Bool
  isFullScreen : Bool
  emitted : List (String × String)
  deriving DecidableEq, Repr

/-- Append one `onViolation(type, details)` call. -/
def emitViolation (s : MonitorState) (vtype details : String) : MonitorState :=
  { s with emitted := s.emitted ++ [(vtype, details)] }

/-- Source `handleKeyDown` under an already-satisfied
`isActive && fullscreenInitializedRef.current` guard. -/
def keyDownViolation (s : MonitorState) (e : KeyEvent) : MonitorState :=
  if forbiddenKeys.contains e.key then
    emitViolation s "forbidden_key" e.key
  else
    match forbiddenCombos.find? (fun combo => comboMatches combo e) with
    | some combo => emitViolation s "forbidden_shortcut" combo.key
    | none => s

/-- One monitor event-handler step (`setupEventListeners`): every handler
requires `isActive` and the armed flag before emitting; the initial
fullscreen entry observed while unarmed flips the flag instead of counting. -/
def monitorStep (s : MonitorState) : Signal → MonitorState
  | .fullscreenChange isFs =>
      let s := { s with isFullScreen := isFs }
      if !isFs && s.isActive && s.armed then
        emitViolation s "fullscreen_exit" "Candidate exited fullscreen mode"
      else if isFs && !s.armed then
        { s with armed := true }
      else s
  | .visibilityChange hidden =>
      if hidden && s.isActive && s.armed then
        emitViolation s "tab_switch" "Candidate switched tabs or minimized window"
      else s
  | .contextMenu =>
      if s.isActive && s.armed then
        emitViolation s "context_menu" "Candidate attempted to open context menu"
      else s
  | .keyDown e =>
      if s.isActive && s.armed then keyDownViolation s e else s

/-! ## Media Capture lifecycle (`ProctoringSystem`'s `useEffect` on
`isActive`, `initializeProctoring` and `cleanup`) -/

/-- Capture-resource state of the mounted `ProctoringSystem`:
`isActive` is the last committed prop (the value closed over by the pending
effect destructor), `isInitialized` the state flag of the same name,
`hasStream` whether the media stream is held, `stopCalls` how many times the
stream's tracks have received a `stop()` call. -/
structure CaptureState where
  isActive : Bool
  isInitialized : Bool
  hasStream : Bool
  stopCalls : Nat
  mounted : Bool
  deriving DecidableEq, Repr

/-- Source `cleanup()`: stop every track of the held stream (once per held stream)
and drop it. -/
def psCleanup (s : CaptureState) : CaptureState :=
  if s.hasStream then
    { s with hasStream := false, stopCalls := s.stopCalls + 1 }
  else s

/-- Source `initializeProctoring()` success path: acquire the stream. -/
def psAcquire (s : CaptureState) : CaptureState :=
  { s with hasStream := true }

/-- Lifecycle events: the `isActive` prop committing a new value, and
unmounting the component. -/
inductive PSEvent
  | setActive (b : Bool)
  | unmount
  deriving DecidableEq, Repr

/-- One lifecycle step.  On a prop change the destructor of the previous
effect runs first — its closure saw the previous `isActive`, and it only
cleans up `if (!isActive)` — then the new effect body runs:
`isActive && !isInitialized` acquires, `!isActive && isInitialized` cleans
up.  On unmount only the destructor runs. -/
def psStep (s : CaptureState) : PSEvent → CaptureState
  | .setActive b =>
      if !s.mounted || b = s.isActive then s
      else
        let s1 := if !s.isActive then psCleanup s else s
        let s2 :=
          if b && !s1.isInitialized then
            psAcquire { s1 with isInitialized := true }
          else if !b && s1.isInitialized then
            psCleanup { s1 with isInitialized := false }
          else s1
        { s2 with isActive := b }
  | .unmount =>
      if s.mounted then
        let s1 := if !s.isActive then psCleanup s else s
        { s1 with mounted := false }
      else s

/-- Run a sequence of lifecycle events. -/
def psRun (s : CaptureState) : List PSEvent → CaptureState
  | [] => s
  | e :: rest => psRun (psStep s e) rest

/-- A freshly mounted, inactive `ProctoringSystem`. -/
def psInit : CaptureState :=
  { isActive := false,
    isInitialized := false,
    hasStream := false,
    stopCalls := 0,
    mounted := true }

/-! # Theorems -/

/-! ## Timer expiry (claim C4) -/

/-- Helper: a tick with at least two seconds left only decrements. -/
theorem tick_startedSession (T : Nat) (h : 2 ≤ T) :
    tick (startedSession T) = startedSession (T - 1) := by
  have h1 : ¬ T ≤ 1 := by omega
  have h2 : ¬ (T - 1 = 0) := by omega
  simp [tick, startedSession, runAutoSubmitEffects, h1, h2]

/-- Helper: the tick that exhausts the last second fires the timer
trigger. -/
theorem tick_startedSession_one :
    tick (startedSession 1) = timeExpiredState := by
  decide

/-- Helper: once the timer trigger has claimed finalization, further ticks
are absorbed. -/
theorem tick_timeExpiredState :
    tick timeExpiredState = timeExpiredState := by
  decide

/-- Helper: closed form of the session state after `n` ticks of a started
session with budget `T`. -/
theorem tickN_startedSession (n T : Nat) (hT : 1 ≤ T) :
    tickN n (startedSession T) =
      if T ≤ n then timeExpiredState else startedSession (T - n) := by
  induction n with
  | zero =>
      have : ¬ T ≤ 0 := by omega
      simp [tickN, this]
  | succ n ih =>
      show tick (tickN n (startedSession T)) = _
      rw [ih]
      by_cases hc : T ≤ n
      · have : T ≤ n + 1 := by omega
        simp [hc, this, tick_timeExpiredState]
      · by_cases he : T = n + 1
        · have h1 : T - n = 1 := by omega
          have h2 : T ≤ n + 1 := by omega
          simp [hc, h1, h2, tick_startedSession_one]
        · have h1 : 2 ≤ T - n := by omega
          have h2 : ¬ T ≤ n + 1 := by omega
          rw [if_neg hc, if_neg h2, tick_startedSession (T - n) h1]
          congr 1

/-- Claim C4: when the countdown first reaches zero, finalization is
requested with trigger `time_expired` exactly once — no request before the
budget is exhausted, exactly one request for every number of ticks from the
`T`-th on, however many further ticks are delivered. -/
theorem time_expired_requested_exactly_once (T n : Nat) (hT : 1 ≤ T) :
    (tickN n (startedSession T)).finalizations =
      if T ≤ n then [Trigger.time_expired] else [] := by
  rw [tickN_startedSession n T hT]
  by_cases h : T ≤ n <;> simp [h, timeExpiredState, startedSession]

/-- Witness for C4: a session with a 3-second budget receiving 10 ticks has
requested `time_expired` exactly once. -/
theorem time_expired_requested_exactly_once_witness :
    (tickN 10 (startedSession 3)).finalizations = [Trigger.time_expired] := by
  have h := time_expired_requested_exactly_once 3 10 (by decide)
  simpa using h

/-! ## Violation threshold (claim C5) -/

/-- Helper: a qualifying signal below the threshold only grows the count. -/
theorem violationStep_below (T n : Nat) (hT : 1 ≤ T) (hn : n + 1 < 3) :
    violationStep { startedSession T with violationsLen := n } =
      { startedSession T with violationsLen := n + 1 } := by
  have h1 : ¬ (T = 0) := by omega
  have h2 : ¬ (3 ≤ n + 1) := by omega
  simp [violationStep, startedSession, runAutoSubmitEffects, h1, h2]

/-- Helper: the third qualifying signal fires the violation trigger. -/
theorem violationStep_third (T : Nat) (hT : 1 ≤ T) :
    violationStep { startedSession T with violationsLen := 2 } =
      violationLimitState T 3 := by
  have h1 : ¬ (T = 0) := by omega
  simp [violationStep, startedSession, runAutoSubmitEffects, h1,
    fireAutoSubmit, submitInterview, violationLimitState]

/-- Helper: once the violation trigger has claimed finalization, further
signals only grow the count. -/
theorem violationStep_after (T n : Nat) :
    violationStep (violationLimitState T n) = violationLimitState T (n + 1) := by
  simp [violationStep, violationLimitState, runAutoSubmitEffects]

/-- Helper: closed form of the session state after `n` qualifying signals. -/
theorem violationN_startedSession (n T : Nat) (hT : 1 ≤ T) :
    violationN n (startedSession T) =
      if n < 3 then { startedSession T with violationsLen := n }
      else violationLimitState T n := by
  induction n with
  | zero => simp [violationN, startedSession]
  | succ n ih =>
      show violationStep (violationN n (startedSession T)) = _
      rw [ih]
      by_cases hc : n < 3
      · by_cases he : n + 1 < 3
        · simp [hc, he, violationStep_below T n hT he]
        · have hn2 : n = 2 := by omega
          subst hn2
          simp [violationStep_third T hT]
      · have h2 : ¬ (n + 1 < 3) := by omega
        simp [hc, h2, violationStep_after]

/-- Claim C5: while the session is Active with proctoring on, the moment the
violation count reaches the threshold 3 a finalization is requested with
trigger `violation_limit`, and that request is issued exactly once however
many further signals arrive. -/
theorem violation_limit_requested_exactly_once (T n : Nat) (hT : 1 ≤ T) :
    (violationN n (startedSession T)).finalizations =
      if n < 3 then [] else [Trigger.violation_limit] := by
  rw [violationN_startedSession n T hT]
  by_cases h : n < 3 <;> simp [h, startedSession, violationLimitState]

/-- Witness for C5: seven signals against a fresh session yield exactly one
`violation_limit` request. -/
theorem violation_limit_requested_exactly_once_witness :
    (violationN 7 (startedSession 3600)).finalizations = [Trigger.violation_limit] := by
  have h := violation_limit_requested_exactly_once 3600 7 (by decide)
  simpa using h

/-! ## Violation accounting (claim C6) -/

/-- Helper: a constant list is a `≤`-chain. -/
theorem chain'_le_replicate (n a : Nat) :
    List.Chain' (· ≤ ·) (List.replicate n a) := by
  induction n with
  | zero => simp
  | succ n ih =>
      cases n with
      | zero => simp
      | succ m =>
          rw [List.replicate_succ, List.replicate_succ, List.chain'_cons]
          exact ⟨le_refl a, by rw [← List.replicate_succ]; exact ih⟩

/-- Helper: closed form of the violation log after a batch of signals, all
handled by the one closure that captured `captured` as its violations
array. -/
theorem recordViolations_spec (evs : List (String × String))
    (captured : List (String × String)) :
    ∀ s : ViolationLog,
      (recordViolations captured s evs).violations = s.violations ++ evs ∧
      (recordViolations captured s evs).violationInserts = s.violationInserts ++ evs ∧
      (recordViolations captured s evs).countWrites =
        s.countWrites ++ List.replicate evs.length (captured.length + 1) := by
  induction evs with
  | nil => intro s; simp [recordViolations]
  | cons v rest ih =>
      intro s
      obtain ⟨h1, h2, h3⟩ := ih (handleViolation captured s v.1 v.2)
      refine ⟨?_, ?_, ?_⟩
      · rw [show recordViolations captured s (v :: rest) =
            recordViolations captured (handleViolation captured s v.1 v.2) rest from rfl, h1]
        simp [handleViolation]
      · rw [show recordViolations captured s (v :: rest) =
            recordViolations captured (handleViolation captured s v.1 v.2) rest from rfl, h2]
        simp [handleViolation]
      · rw [show recordViolations captured s (v :: rest) =
            recordViolations captured (handleViolation captured s v.1 v.2) rest from rfl, h3]
        simp [handleViolation, List.replicate_succ, List.append_assoc]

/-- Counterexample to C6: the monitor's listeners were registered while the
violations array was empty, so after two qualifying signals the local list
has length 2 but both `interviews.violation_count` writes are `0 + 1 = 1` —
the persisted violationCount after the second signal is 1, not 2. -/
theorem persisted_violation_count_stuck_after_two_signals :
    (recordViolations [] emptyViolationLog
        [("tab_switch", "a"), ("context_menu", "b")]).violations.length = 2 ∧
    (recordViolations [] emptyViolationLog
        [("tab_switch", "a"), ("context_menu", "b")]).countWrites = [1, 1] ∧
    (recordViolations [] emptyViolationLog
        [("tab_switch", "a"), ("context_menu", "b")]).countWrites.getLast? = some 1 := by
  decide

/-- Claim C6 (amended): after `N` recorded qualifying signals the local
violation list and the `interview_violations` inserts both have length `N`,
but every `interviews.violation_count` write equals 1: the `handleViolation`
closure the DOM listeners captured at registration reads the activation-time
empty `violations` array, so the persisted count stays 1 for every `N ≥ 1`
(trivially monotonically non-decreasing) instead of reaching `N`. -/
theorem violation_count_writes_stuck_at_one (evs : List (String × String)) :
    (recordViolations [] emptyViolationLog evs).violations.length = evs.length ∧
    (recordViolations [] emptyViolationLog evs).violationInserts.length = evs.length ∧
    (recordViolations [] emptyViolationLog evs).countWrites =
      List.replicate evs.length 1 ∧
    (evs ≠ [] →
      (recordViolations [] emptyViolationLog evs).countWrites.getLast? = some 1) ∧
    List.Chain' (· ≤ ·) (recordViolations [] emptyViolationLog evs).countWrites := by
  obtain ⟨h1, h2, h3⟩ := recordViolations_spec evs [] emptyViolationLog
  simp only [emptyViolationLog, List.nil_append, List.length_nil, Nat.zero_add] at h1 h2 h3 ⊢
  refine ⟨by rw [h1], by rw [h2], by rw [h3], ?_, ?_⟩
  · intro hne
    rw [h3]
    obtain ⟨m, hm⟩ : ∃ m, evs.length = m + 1 :=
      ⟨evs.length - 1, by cases evs with
        | nil => exact absurd rfl hne
        | cons a t => simp⟩
    rw [hm, List.replicate_succ']
    simp [List.getLast?_concat]
  · rw [h3]
    exact chain'_le_replicate evs.length 1

/-- Witness for C6 (amended): three signals — three inserts, three local
entries, count writes `[1, 1, 1]`, final persisted count 1. -/
theorem violation_count_writes_stuck_at_one_witness :
    (recordViolations [] emptyViolationLog
      [("tab_switch", "a"), ("context_menu", "b"), ("fullscreen_exit", "c")]).countWrites =
      List.replicate 3 1 ∧
    (recordViolations [] emptyViolationLog
      [("tab_switch", "a"), ("context_menu", "b"), ("fullscreen_exit", "c")]).countWrites.getLast? =
      some 1 := by
  have h := violation_count_writes_stuck_at_one
    [("tab_switch", "a"), ("context_menu", "b"), ("fullscreen_exit", "c")]
  exact ⟨h.2.2.1, h.2.2.2.1 (by simp)⟩

/-! ## Same-instant finalization arbitration (claim C1) -/

/-- Counterexample to C1: a manual submit and the timer trigger firing in
the same instant both pass the `submitting` guard — the write of the manual
path's `setSubmitting(true)` is not visible within the instant, and the
manual path never sets `autoSubmitRef` — so the finalization pass runs
twice. -/
theorem manual_and_timer_same_instant_double_finalize :
    (runInstant cleanInstant [Trigger.manual, Trigger.time_expired]).finalizations =
      [Trigger.manual, Trigger.time_expired] ∧
    (runInstant cleanInstant [Trigger.manual, Trigger.time_expired]).finalizations.length = 2 := by
  decide

/-- Helper: a trigger firing against an already-submitting snapshot never
finalizes. -/
theorem fireTrigger_claimed (s : InstantState) (t : Trigger)
    (h : s.submitting = true) :
    (fireTrigger s t).finalizations = s.finalizations ∧
    (fireTrigger s t).submitting = true ∧
    (fireTrigger s t).pendingSubmitting = s.pendingSubmitting := by
  cases t <;> simp [fireTrigger, submitInterviewInstant, h] <;>
    split <;> simp [h]

/-- Helper: a whole instant processed against an already-submitting
snapshot adds no finalization. -/
theorem foldl_fireTrigger_claimed (later : List Trigger) :
    ∀ s : InstantState, s.submitting = true →
      ((later.foldl fireTrigger s).finalizations = s.finalizations ∧
       (later.foldl fireTrigger s).submitting = true) := by
  induction later with
  | nil => intro s h; exact ⟨rfl, h⟩
  | cons t rest ih =>
      intro s h
      obtain ⟨h1, h2, _⟩ := fireTrigger_claimed s t h
      obtain ⟨h3, h4⟩ := ih (fireTrigger s t) h2
      exact ⟨h3.trans h1, h4⟩

/-- Helper: automatic triggers are absorbed once `autoSubmitRef` is set. -/
theorem foldl_fireTrigger_auto_absorbed (later : List Trigger)
    (hall : ∀ t ∈ later, t ≠ Trigger.manual) :
    ∀ s : InstantState, s.autoSubmit = true → later.foldl fireTrigger s = s := by
  induction later with
  | nil => intro s _; rfl
  | cons t rest ih =>
      intro s h
      have ht : t ≠ Trigger.manual := hall t (by simp)
      have hstep : fireTrigger s t = s := by
        cases t with
        | manual => exact absurd rfl ht
        | time_expired => simp [fireTrigger, h]
        | violation_limit => simp [fireTrigger, h]
      rw [List.foldl_cons, hstep]
      exact ih (fun u hu => hall u (by simp [hu])) s h

/-- Claim C1 (amended): when all the triggers that fire within one instant
are automatic (`time_expired` / `violation_limit`), the synchronously-set
`autoSubmitRef` guard admits exactly one finalization, and once the instant
has flushed, any later instant — including a manual submit — adds none. -/
theorem auto_triggers_finalize_exactly_once (triggers : List Trigger)
    (hne : triggers ≠ [])
    (hauto : ∀ t ∈ triggers, t ≠ Trigger.manual) :
    (runInstant cleanInstant triggers).finalizations.length = 1 ∧
    ∀ later : List Trigger,
      (runInstant (runInstant cleanInstant triggers) later).finalizations =
        (runInstant cleanInstant triggers).finalizations := by
  obtain ⟨t, rest, rfl⟩ : ∃ t rest, triggers = t :: rest := by
    cases triggers with
    | nil => exact absurd rfl hne
    | cons a b => exact ⟨a, b, rfl⟩
  have ht : t ≠ Trigger.manual := hauto t (by simp)
  have hrest : ∀ u ∈ rest, u ≠ Trigger.manual := fun u hu => hauto u (by simp [hu])
  have hfirst : ∃ tr : Trigger,
      fireTrigger cleanInstant t =
        { submitting := false, pendingSubmitting := true, autoSubmit := true,
          finalizations := [tr] } := by
    cases t with
    | manual => exact absurd rfl ht
    | time_expired =>
        exact ⟨.time_expired, by simp [fireTrigger, cleanInstant, submitInterviewInstant]⟩
    | violation_limit =>
        exact ⟨.violation_limit, by simp [fireTrigger, cleanInstant, submitInterviewInstant]⟩
  obtain ⟨tr, htr⟩ := hfirst
  have hfold : (t :: rest).foldl fireTrigger cleanInstant =
      { submitting := false, pendingSubmitting := true, autoSubmit := true,
        finalizations := [tr] } := by
    rw [List.foldl_cons, htr]
    exact foldl_fireTrigger_auto_absorbed rest hrest _ rfl
  have hrun : runInstant cleanInstant (t :: rest) =
      { submitting := true, pendingSubmitting := true, autoSubmit := true,
        finalizations := [tr] } := by
    simp [runInstant, hfold]
  refine ⟨by rw [hrun]; rfl, ?_⟩
  intro later
  rw [hrun]
  obtain ⟨h1, h2⟩ := foldl_fireTrigger_claimed later
    { submitting := true, pendingSubmitting := true, autoSubmit := true,
      finalizations := [tr] } rfl
  simp [runInstant, h1]

/-- Witness for C1 (amended): the timer and violation triggers firing in the
same instant finalize exactly once, and a manual submit in the next instant
adds nothing. -/
theorem auto_triggers_finalize_exactly_once_witness :
    (runInstant cleanInstant [Trigger.time_expired, Trigger.violation_limit]).finalizations.length = 1 ∧
    (runInstant (runInstant cleanInstant [Trigger.time_expired, Trigger.violation_limit])
        [Trigger.manual]).finalizations =
      (runInstant cleanInstant [Trigger.time_expired, Trigger.violation_limit]).finalizations := by
  have h := auto_triggers_finalize_exactly_once
    [Trigger.time_expired, Trigger.violation_limit] (by decide) (by decide)
  exact ⟨h.1, h.2 [Trigger.manual]⟩

/-! ## Monitor arming (claim C8) -/

/-- Claim C8: while the monitoring-armed flag (`fullscreenInitializedRef`)
is still false, no signal produces a Violation — in particular the initial
fullscreen entry merely flips the flag — so only signals observed after
arming are counted. -/
theorem unarmed_monitor_emits_nothing (s : MonitorState) (h : s.armed = false) :
    (∀ sig : Signal, (monitorStep s sig).emitted = s.emitted) ∧
    (monitorStep s (.fullscreenChange true)).armed = true ∧
    (monitorStep s (.fullscreenChange true)).emitted = s.emitted := by
  refine ⟨?_, ?_, ?_⟩
  · intro sig
    cases sig with
    | fullscreenChange isFs =>
        cases isFs <;> simp [monitorStep, h, emitViolation]
    | visibilityChange hidden =>
        cases hidden <;> simp [monitorStep, h, emitViolation]
    | contextMenu => simp [monitorStep, h, emitViolation]
    | keyDown e => simp [monitorStep, h]
  · simp [monitorStep, h]
  · simp [monitorStep, h]

/-- Witness for C8: an unarmed active monitor stays silent on the initial
fullscreen entry and becomes armed. -/
theorem unarmed_monitor_emits_nothing_witness :
    (monitorStep ⟨true, false, false, []⟩ (.fullscreenChange true)).armed = true ∧
    (monitorStep ⟨true, false, false, []⟩ (.fullscreenChange true)).emitted = [] ∧
    (monitorStep ⟨true, false, false, []⟩ .contextMenu).emitted = [] := by
  have h := unarmed_monitor_emits_nothing ⟨true, false, false, []⟩ rfl
  exact ⟨h.2.1, h.2.2, h.1 .contextMenu⟩

/-! ## Media release (claim C9) -/

/-- Counterexample to C9: a teardown that unmounts the monitor while it is
still active ends the session with zero track-stop calls — the effect
destructor only cleans up when `isActive` is false — so the stream leaks
instead of being released exactly once. -/
theorem media_release_skipped_on_unmount_while_active :
    (psRun psInit [.setActive true, .unmount]).stopCalls = 0 ∧
    (psRun psInit [.setActive true, .unmount]).hasStream = true ∧
    (psRun psInit [.setActive true, .unmount]).mounted = false := by
  decide

/-- Claim C9 (amended): the acquired tracks are stopped exactly once when
monitoring is deactivated before teardown — the path all three finalization
triggers take, since `submitInterview` clears `proctoringActive` first —
and the subsequent unmount performs no second stop; only a teardown that
unmounts while still active performs no stop at all. -/
theorem media_released_exactly_once_when_deactivated_before_teardown :
    (psRun psInit [.setActive true, .setActive false]).stopCalls = 1 ∧
    (psRun psInit [.setActive true, .setActive false, .unmount]).stopCalls = 1 ∧
    (psRun psInit [.setActive true, .setActive false, .unmount]).hasStream = false := by
  decide

/-! ## Percentage and rating banding (claim C2) -/

/-- Claim C2: with a positive maximum, `percentageScore` is
`totalScore / maxPossibleScore * 100`, and `overallRating` bands the
percentage with every boundary value falling in the higher band:
`≥ 90` excellent, `75 ≤ p < 90` good, `60 ≤ p < 75` average, `< 60` poor —
so 95 ↦ excellent, 80 ↦ good, 65 ↦ average, 40 ↦ poor, and the boundary
values 90, 75 and 60 map to excellent, good and average. -/
theorem percentage_and_rating_banding (totalS maxS : ℚ) (h : 0 < maxS) :
    percentageScore totalS maxS = totalS / maxS * 100 ∧
    (∀ p : ℚ, overallRating p = .excellent ↔ 90 ≤ p) ∧
    (∀ p : ℚ, overallRating p = .good ↔ 75 ≤ p ∧ p < 90) ∧
    (∀ p : ℚ, overallRating p = .average ↔ 60 ≤ p ∧ p < 75) ∧
    (∀ p : ℚ, overallRating p = .poor ↔ p < 60) ∧
    overallRating 95 = .excellent ∧ overallRating 80 = .good ∧
    overallRating 65 = .average ∧ overallRating 40 = .poor ∧
    overallRating 90 = .excellent ∧ overallRating 75 = .good ∧
    overallRating 60 = .average := by
  refine ⟨by simp [percentageScore, h], ?_, ?_, ?_, ?_,
    by norm_num [overallRating], by norm_num [overallRating],
    by norm_num [overallRating], by norm_num [overallRating],
    by norm_num [overallRating], by norm_num [overallRating],
    by norm_num [overallRating]⟩ <;>
  · intro p
    unfold overallRating
    split_ifs <;> simp_all <;> intros <;> linarith

/-- Witness for C2: scoring 45 of 60 gives a percentage of exactly
`45 / 60 * 100`. -/
theorem percentage_and_rating_banding_witness :
    percentageScore 45 60 = 45 / 60 * 100 :=
  (percentage_and_rating_banding 45 60 (by norm_num)).1

/-! ## Empty question set (claim C3) -/

/-- Claim C3: when the fetched question set is empty, `initializeInterview`
fails with `NoQuestionsAvailable` and performs no `interviews` insert, so no
session record exists and no session ever becomes Active. -/
theorem initialize_empty_fails_without_insert (candidateId domainId examCode : String)
    (questionsData : List Question) (h : questionsData = []) :
    (initializeInterview candidateId domainId examCode questionsData).result =
      .error .noQuestionsAvailable ∧
    (initializeInterview candidateId domainId examCode questionsData).inserts = [] := by
  subst h
  simp [initializeInterview]

/-- Witness for C3: a concrete initialize call with no questions. -/
theorem initialize_empty_fails_without_insert_witness :
    (initializeInterview "cand-1" "dom-1" "EX123" []).result =
      .error .noQuestionsAvailable ∧
    (initializeInterview "cand-1" "dom-1" "EX123" []).inserts = [] :=
  initialize_empty_fails_without_insert "cand-1" "dom-1" "EX123" [] rfl

/-! ## Shared execution result (claim C10) -/

/-- Helper: folding an overwrite over a run list keeps only the last run. -/
theorem foldl_overwrite (runs : List (String × ExecutionResult)) :
    ∀ init : Option ExecutionResult,
      runs.foldl (fun _ r => some r.2) init =
        (match runs.getLast? with
         | some p => some p.2
         | none => init) := by
  induction runs using List.reverseRecOn with
  | nil => intro init; rfl
  | append_singleton l a ih =>
      intro init
      rw [List.foldl_append]
      simp [List.getLast?_concat]

/-- Helper: the shared `executionResult` cell holds the most recent run,
whichever question that run belonged to. -/
theorem sessionExecResult_eq_last (runs : List (String × ExecutionResult))
    (h : runs ≠ []) :
    sessionExecResult runs = some ((runs.getLast h).2) := by
  rw [sessionExecResult, foldl_overwrite runs none, List.getLast?_eq_getLast runs h]

/-- Claim C10: at finalization the one most-recently-stored execution result
is what `submitInterview` passes to the validator, and every persisted
`interview_answers` row carries that same result — not the result of its own
question's run. -/
theorem persisted_answers_carry_last_run_result (questions : List Question)
    (answers : String → Option AnswerDraft)
    (runs : List (String × ExecutionResult)) (h : runs ≠ []) :
    sessionExecResult runs = some ((runs.getLast h).2) ∧
    ∀ row ∈ answerRows questions answers (sessionExecResult runs),
      row.execution_result = some ((runs.getLast h).2) := by
  refine ⟨sessionExecResult_eq_last runs h, ?_⟩
  intro row hrow
  obtain ⟨q, hq, heq⟩ := List.mem_filterMap.mp hrow
  obtain ⟨a, ha, rfl⟩ := Option.map_eq_some'.mp heq
  exact sessionExecResult_eq_last runs h

/-- Witness for C10: after running code for `"q1"` and then for `"q2"`, the
persisted row of `"q1"` carries the `"q2"` run's result. -/
theorem persisted_answers_carry_last_run_result_witness :
    sessionExecResult
        [("q1", { output := some "1", error := none }),
         ("q2", { output := some "2", error := none })] =
      some { output := some "2", error := none } ∧
    ∀ row ∈ answerRows scenarioQuestions scenarioAnswers
        (sessionExecResult
          [("q1", { output := some "1", error := none }),
           ("q2", { output := some "2", error := none })]),
      row.execution_result = some { output := some "2", error := none } := by
  have h := persisted_answers_carry_last_run_result scenarioQuestions scenarioAnswers
    [("q1", { output := some "1", error := none }),
     ("q2", { output := some "2", error := none })] (by simp)
  simpa using h

/-! ## Finalize scoring (claim C7) -/

/-- Helper: the structure component is non-negative. -/
theorem codingStructureScore_nonneg (q : Question) (ans : String)
    (h : 0 ≤ q.max_score) : 0 ≤ codingStructureScore q ans := by
  unfold codingStructureScore
  split
  · exact mul_nonneg h (by norm_num)
  · exact le_refl 0

/-- Helper: the execution component is non-negative. -/
theorem codingExecScore_nonneg (q : Question) (er : Option ExecutionResult)
    (h : 0 ≤ q.max_score) : 0 ≤ codingExecScore q er := by
  unfold codingExecScore
  cases er with
  | none => exact le_refl 0
  | some r =>
      by_cases hr : r.error = none <;> simp only [hr, if_true, if_false]
      · exact mul_nonneg h (by norm_num)
      · simp [hr]

/-- Helper: the test-case component is non-negative. -/
theorem codingTestScore_nonneg (q : Question) (h : 0 ≤ q.max_score) :
    0 ≤ codingTestScore q := by
  unfold codingTestScore
  split
  · exact le_refl 0
  · exact mul_nonneg h (by norm_num)

/-- Helper: a coding score lies in `[0, max_score]`. -/
theorem validateCodingAnswer_bounds (q : Question) (ans : String)
    (er : Option ExecutionResult) (h : 0 ≤ q.max_score) :
    0 ≤ validateCodingAnswer q ans er ∧ validateCodingAnswer q ans er ≤ q.max_score := by
  unfold validateCodingAnswer
  split
  · exact ⟨le_refl 0, h⟩
  · refine ⟨le_min ?_ h, min_le_right _ _⟩
    have h1 := codingStructureScore_nonneg q ans h
    have h2 := codingExecScore_nonneg q er h
    have h3 := codingTestScore_nonneg q h
    linarith

/-- Helper: a text score lies in `[0, max_score]`. -/
theorem validateTextAnswer_bounds (q : Question) (ans : String)
    (h : 0 ≤ q.max_score) :
    0 ≤ validateTextAnswer q ans ∧ validateTextAnswer q ans ≤ q.max_score := by
  unfold validateTextAnswer
  split_ifs
  · exact ⟨le_refl 0, h⟩
  all_goals exact ⟨mul_nonneg h (by norm_num), by linarith⟩

/-- Helper: every validator score lies in `[0, max_score]`. -/
theorem validateAnswer_score_bounds (q : Question) (ans : String)
    (er : Option ExecutionResult) (h : 0 ≤ q.max_score) :
    0 ≤ (validateAnswer q ans er).score ∧ (validateAnswer q ans er).score ≤ q.max_score := by
  unfold validateAnswer mockAIValidation
  cases q.question_type with
  | mcq =>
      cases q.correct_answer with
      | none => exact ⟨le_refl 0, h⟩
      | some c =>
          by_cases hc : ans = c <;> simp only [hc, if_true, if_false]
          · exact ⟨h, le_refl _⟩
          · simp [hc, h]
  | coding => exact validateCodingAnswer_bounds q ans er h
  | text => exact validateTextAnswer_bounds q ans h

/-- Claim C7: the finalize pass visits every assigned question — an answered
question contributes the validator's score, which equals that score capped
at the question's `max_score`; an unanswered question contributes exactly
zero; the total is the sum of the contributions; and with a positive
maximum the final percentage is the total divided by the maximum times
100. -/
theorem finalize_scoring_caps_and_zeroes (questions : List Question)
    (answers : String → Option AnswerDraft) (er : Option ExecutionResult)
    (h : ∀ q ∈ questions, 0 ≤ q.max_score) :
    totalScore questions answers er =
      (questions.map (fun q =>
        match answers q.id with
        | none => 0
        | some a => min (validateAnswer q (answerPayload a) er).score q.max_score)).sum ∧
    (∀ q ∈ questions, answers q.id = none → questionScore answers er q = 0) ∧
    (0 < maxPossibleScore questions →
      percentageScore (totalScore questions answers er) (maxPossibleScore questions) =
        totalScore questions answers er / maxPossibleScore questions * 100) := by
  refine ⟨?_, ?_, ?_⟩
  · unfold totalScore
    apply congrArg List.sum
    apply List.map_congr_left
    intro q hq
    unfold questionScore
    cases hqa : answers q.id with
    | none => simp [hqa]
    | some a =>
        simp only [hqa]
        exact (min_eq_left
          (validateAnswer_score_bounds q (answerPayload a) er (h q hq)).2).symm
  · intro q hq hnone
    unfold questionScore
    rw [hnone]
  · intro hpos
    simp [percentageScore, hpos]

/-- Witness for C7: in the 5/10/15 scenario with only the first and third
questions answered, the total equals the capped sum and the percentage is
the total over 30 times 100. -/
theorem finalize_scoring_caps_and_zeroes_witness :
    totalScore scenarioQuestions scenarioAnswers none =
      (scenarioQuestions.map (fun q =>
        match scenarioAnswers q.id with
        | none => 0
        | some a => min (validateAnswer q (answerPayload a) none).score q.max_score)).sum ∧
    percentageScore (totalScore scenarioQuestions scenarioAnswers none)
        (maxPossibleScore scenarioQuestions) =
      totalScore scenarioQuestions scenarioAnswers none /
        maxPossibleScore scenarioQuestions * 100 := by
  have h := finalize_scoring_caps_and_zeroes scenarioQuestions scenarioAnswers none
    (by decide)
  exact ⟨h.1, h.2.2 (by norm_num [maxPossibleScore, scenarioQuestions])⟩

end Camera
